import Mathlib

/-!
Verification of the session-process orchestration and permission-gating
core of `claude-code-viewer`, shallowly embedded in Lean 4.

The embedding follows the TypeScript source:
* `ClaudeCodePermissionService` (`waitPermissionResponse`,
  `createCanUseToolRelatedOptions`'s `canUseTool` callback,
  `respondToPermissionRequest`),
* `ClaudeCode` (`getAvailableFeatures`, `query`),
* the `/session-processes/:id/abort` route handler,
* `sendTelegramMessage` of the Telegram notification service.

Mutable `Map`s held in `Ref`s are embedded as association lists with
explicit state passing; the poll loop of `waitPermissionResponse` reads
the responses map through an environment `Nat → AList PermissionResponse`
giving the snapshot of the shared map at each elapsed-time instant, which
models concurrent `respondToPermissionRequest` calls mutating the map
while the loop sleeps.
-/

namespace ClaudeCodeViewer

/-- Association-list embedding of a TypeScript `Map<string, α>`. -/
def AList (α : Type) : Type := List (String × α)

instance {α : Type} [DecidableEq α] : DecidableEq (AList α) :=
  inferInstanceAs (DecidableEq (List (String × α)))

namespace AList

/-- Embedding of `map.get(k)` — first binding for `k`, if any. -/
def get {α : Type} (k : String) : AList α → Option α
  | [] => none
  | (k', v) :: rest => if k' = k then some v else get k rest

/-- Embedding of `map.set(k, v)` — overwrite the binding for `k` (or append it). -/
def set {α : Type} (k : String) (v : α) : AList α → AList α
  | [] => [(k, v)]
  | (k', v') :: rest => if k' = k then (k, v) :: rest else (k', v') :: set k v rest

/-- Embedding of `map.delete(k)` — drop every binding for `k`; a no-op for an absent key. -/
def del {α : Type} (k : String) : AList α → AList α
  | [] => []
  | (k', v') :: rest => if k' = k then del k rest else (k', v') :: del k rest

theorem get_set_self {α : Type} (k : String) (v : α) (m : AList α) :
    get k (set k v m) = some v := by
  induction m with
  | nil => simp [set, get]
  | cons hd tl ih =>
    obtain ⟨k', v'⟩ := hd
    by_cases h : k' = k <;> simp [set, get, h, ih]

theorem get_del_self {α : Type} (k : String) (m : AList α) :
    get k (del k m) = none := by
  induction m with
  | nil => simp [del, get]
  | cons hd tl ih =>
    obtain ⟨k', v'⟩ := hd
    by_cases h : k' = k <;> simp [del, get, h, ih]

theorem set_set_self {α : Type} (k : String) (v : α) (m : AList α) :
    set k v (set k v m) = set k v m := by
  induction m with
  | nil => simp [set]
  | cons hd tl ih =>
    obtain ⟨k', v'⟩ := hd
    by_cases h : k' = k <;> simp [set, h, ih]

theorem del_set_self {α : Type} (k : String) (v : α) (m : AList α) :
    del k (set k v m) = del k m := by
  induction m with
  | nil => simp [set, del]
  | cons hd tl ih =>
    obtain ⟨k', v'⟩ := hd
    by_cases h : k' = k <;> simp [set, del, h, ih]

theorem del_del_self {α : Type} (k : String) (m : AList α) :
    del k (del k m) = del k m := by
  induction m with
  | nil => simp [del]
  | cons hd tl ih =>
    obtain ⟨k', v'⟩ := hd
    by_cases h : k' = k <;> simp [del, h, ih]

end AList

/-- The `decision` field of a `PermissionResponse`: `"allow" | "deny"`. -/
inductive Decision : Type
  | allow : Decision
  | deny : Decision
deriving DecidableEq, Repr

/-- Type `PermissionRequest` from `types/permissions` — a single tool-authorization
question raised mid-turn.  `toolInput` is an opaque payload. -/
structure PermissionRequest : Type where
  id : String
  turnId : String
  sessionId : Option String
  toolName : String
  toolInput : String
  timestamp : Nat
deriving DecidableEq, Repr

/-- Type `PermissionResponse` from `types/permissions`. -/
structure PermissionResponse : Type where
  permissionRequestId : String
  decision : Decision
deriving DecidableEq, Repr

/-- The `permissionRequested` event emitted on the event bus by
`waitPermissionResponse` (payload: request, projectId, cwd). -/
structure PermissionRequestedEvent : Type where
  permissionRequest : PermissionRequest
  projectId : Option String
  cwd : Option String
deriving DecidableEq, Repr

/-- Snapshots of the shared `permissionResponsesRef` map as a function of
elapsed milliseconds since the wait began: `env t` is what `Ref.get` returns
at a poll made `t` ms in.  Concurrent `respondToPermissionRequest` calls are
modelled by `env` changing over time. -/
def ResponsesEnv : Type := Nat → AList PermissionResponse

/-- The poll loop of `waitPermissionResponse`
(`ClaudeCodePermissionService`):

```
let passedMs = 0; let response = null;
while (passedMs < options.timeoutMs) {
  const responses = yield* Ref.get(permissionResponsesRef);
  response = responses.get(request.id) ?? null;
  if (response !== null) break;
  yield* Effect.sleep(1000); passedMs += 1000;
}
return response;
```

`look t` is `responses.get(request.id) ?? null` read at elapsed time `t`.
Returns the response (or `none` on timeout) together with the total slept
milliseconds.  `fuel` bounds the recursion; `waitLoop_fuel_succ` shows any
fuel of at least `timeoutMs` is beyond the number of iterations the source
loop performs, so the bound never alters the result. -/
def waitLoop (look : Nat → Option PermissionResponse) (timeoutMs : Nat) :
    Nat → Nat → Option PermissionResponse × Nat
  | passedMs, 0 => (none, passedMs)
  | passedMs, fuel + 1 =>
    if passedMs < timeoutMs then
      match look passedMs with
      | some r => (some r, passedMs)
      | none => waitLoop look timeoutMs (passedMs + 1000) fuel
    else
      (none, passedMs)

/-- One iteration of the loop when the poll finds no response. -/
theorem waitLoop_step (look : Nat → Option PermissionResponse)
    (timeoutMs passedMs fuel : Nat) (hlt : passedMs < timeoutMs)
    (hnone : look passedMs = none) :
    waitLoop look timeoutMs passedMs (fuel + 1) =
      waitLoop look timeoutMs (passedMs + 1000) fuel := by
  simp [waitLoop, hlt, hnone]

/-- Loop exit: once `passedMs ≥ timeoutMs` the loop returns the sentinel,
whatever fuel remains. -/
theorem waitLoop_exit (look : Nat → Option PermissionResponse)
    (timeoutMs passedMs fuel : Nat) (hge : timeoutMs ≤ passedMs) :
    waitLoop look timeoutMs passedMs fuel = (none, passedMs) := by
  cases fuel with
  | zero => simp [waitLoop]
  | succ fuel => simp [waitLoop, Nat.not_lt.mpr hge]

/-- A successful poll breaks out of the loop immediately. -/
theorem waitLoop_found (look : Nat → Option PermissionResponse)
    (timeoutMs passedMs fuel : Nat) (r : PermissionResponse)
    (hlt : passedMs < timeoutMs) (hr : look passedMs = some r) :
    waitLoop look timeoutMs passedMs (fuel + 1) = (some r, passedMs) := by
  simp [waitLoop, hlt, hr]

/-- The fuel bound is inert: as long as `1000 * fuel + passedMs ≥ timeoutMs`
(in particular for `fuel = timeoutMs`, `passedMs = 0`), adding more fuel does
not change the result, so the fuelled recursion computes exactly the source's
unbounded `while` loop. -/
theorem waitLoop_fuel_succ (look : Nat → Option PermissionResponse)
    (timeoutMs : Nat) :
    ∀ fuel passedMs, timeoutMs ≤ 1000 * fuel + passedMs →
      waitLoop look timeoutMs passedMs (fuel + 1) =
        waitLoop look timeoutMs passedMs fuel := by
  intro fuel
  induction fuel with
  | zero =>
    intro passedMs h
    simp only [Nat.mul_zero, Nat.zero_add] at h
    rw [waitLoop_exit look timeoutMs passedMs _ h,
      waitLoop_exit look timeoutMs passedMs _ h]
  | succ fuel ih =>
    intro passedMs h
    by_cases hlt : passedMs < timeoutMs
    · cases hr : look passedMs with
      | some r =>
        rw [waitLoop_found look timeoutMs passedMs _ r hlt hr,
          waitLoop_found look timeoutMs passedMs _ r hlt hr]
      | none =>
        rw [waitLoop_step look timeoutMs passedMs _ hlt hr,
          waitLoop_step look timeoutMs passedMs _ hlt hr]
        exact ih (passedMs + 1000) (by omega)
    · rw [waitLoop_exit look timeoutMs passedMs _ (Nat.not_lt.mp hlt),
        waitLoop_exit look timeoutMs passedMs _ (Nat.not_lt.mp hlt)]

/-- The elapsed time reported by the loop never decreases below the entry
`passedMs`. -/
theorem waitLoop_elapsed_ge (look : Nat → Option PermissionResponse)
    (timeoutMs : Nat) :
    ∀ fuel passedMs, passedMs ≤ (waitLoop look timeoutMs passedMs fuel).2 := by
  intro fuel
  induction fuel with
  | zero => intro passedMs; simp [waitLoop]
  | succ fuel ih =>
    intro passedMs
    by_cases hlt : passedMs < timeoutMs
    · cases hr : look passedMs with
      | some r => rw [waitLoop_found look timeoutMs passedMs _ r hlt hr]
      | none =>
        rw [waitLoop_step look timeoutMs passedMs _ hlt hr]
        exact le_trans (by omega) (ih (passedMs + 1000))
    · rw [waitLoop_exit look timeoutMs passedMs _ (Nat.not_lt.mp hlt)]

/-- When no response ever appears, the loop returns the `none` sentinel,
and the total slept time lands in `[timeoutMs, timeoutMs + 1000)` — the
loop overshoots the deadline by up to one full 1000 ms poll interval. -/
theorem waitLoop_timeout_bounds (look : Nat → Option PermissionResponse)
    (timeoutMs : Nat) (hnone : ∀ t, look t = none) :
    ∀ fuel passedMs, timeoutMs ≤ 1000 * fuel + passedMs →
      passedMs < timeoutMs + 1000 →
      (waitLoop look timeoutMs passedMs fuel).1 = none ∧
        timeoutMs ≤ (waitLoop look timeoutMs passedMs fuel).2 ∧
        (waitLoop look timeoutMs passedMs fuel).2 < timeoutMs + 1000 := by
  intro fuel
  induction fuel with
  | zero =>
    intro passedMs hfuel hub
    simp only [Nat.mul_zero, Nat.zero_add] at hfuel
    rw [waitLoop_exit look timeoutMs passedMs _ hfuel]
    exact ⟨rfl, hfuel, hub⟩
  | succ fuel ih =>
    intro passedMs hfuel hub
    by_cases hlt : passedMs < timeoutMs
    · rw [waitLoop_step look timeoutMs passedMs _ hlt (hnone passedMs)]
      exact ih (passedMs + 1000) (by omega) (by omega)
    · rw [waitLoop_exit look timeoutMs passedMs _ (Nat.not_lt.mp hlt)]
      exact ⟨rfl, Nat.not_lt.mp hlt, hub⟩

/-- Result of one `waitPermissionResponse` call: the returned response (or
the `none` timeout sentinel), the milliseconds slept, the pending map after
the call, and the events emitted. -/
structure WaitResult : Type where
  response : Option PermissionResponse
  elapsedMs : Nat
  pendingAfter : AList PermissionRequest
  events : List PermissionRequestedEvent

/-- Function `waitPermissionResponse(request, options)` of
`ClaudeCodePermissionService`: records the request in the pending map,
emits a `permissionRequested` event, then polls the responses map (whose
snapshots over time are `env`) once a second until a response for
`request.id` appears or `timeoutMs` is exhausted.  Nothing in the function
removes the request from the pending map. -/
def waitPermissionResponse (pending : AList PermissionRequest)
    (request : PermissionRequest) (timeoutMs : Nat)
    (projectId cwd : Option String) (env : ResponsesEnv) : WaitResult :=
  let pendingAfter := AList.set request.id request pending
  let look : Nat → Option PermissionResponse :=
    fun t => AList.get request.id (env t)
  let out := waitLoop look timeoutMs 0 timeoutMs
  { response := out.1
    elapsedMs := out.2
    pendingAfter := pendingAfter
    events := [{ permissionRequest := request, projectId := projectId, cwd := cwd }] }

/-- The two mutable maps held in `Ref`s by `ClaudeCodePermissionService`:
`pendingPermissionRequestsRef` and `permissionResponsesRef`. -/
structure GatewayState : Type where
  pending : AList PermissionRequest
  responses : AList PermissionResponse
deriving DecidableEq

/-- Function `respondToPermissionRequest(response)`: stores the decision keyed by
`permissionRequestId` and deletes that id from the pending map.  Its source
type is `Effect.Effect<void>` — no error channel — and both map operations
are total, which the embedding reflects by being a total function. -/
def respondToPermissionRequest (response : PermissionResponse)
    (s : GatewayState) : GatewayState :=
  { pending := AList.del response.permissionRequestId s.pending
    responses := AList.set response.permissionRequestId response s.responses }

/-- Values of `userConfig.permissionMode` (the Claude Code SDK `PermissionMode`). -/
inductive PermissionMode : Type
  | default : PermissionMode
  | acceptEdits : PermissionMode
  | bypassPermissions : PermissionMode
  | plan : PermissionMode
deriving DecidableEq, Repr

/-- Return value of the `canUseTool` callback: `{ behavior: "allow",
updatedInput }` or `{ behavior: "deny", message }`. -/
inductive ToolDecision : Type
  | allow (updatedInput : String) : ToolDecision
  | deny (message : String) : ToolDecision
deriving DecidableEq, Repr

/-- What one invocation of the `canUseTool` callback returns and does to the
gateway's shared state: the decision handed back to the agent SDK, the
events emitted on the bus, and the pending map after the call. -/
structure CanUseToolOutcome : Type where
  decision : ToolDecision
  events : List PermissionRequestedEvent
  pendingAfter : AList PermissionRequest

/-- The `canUseTool` callback built by `createCanUseToolRelatedOptions`
(`ClaudeCodePermissionService`).  When `userConfig.permissionMode` is not
`"default"` it short-circuits: allow with the unchanged input for
`"bypassPermissions"` and `"acceptEdits"`, deny with the plan-mode message
otherwise.  Only in `"default"` mode does it build a `PermissionRequest`
(fresh `ulid()` id and `Date.now()` timestamp, passed in here as `reqId`
and `now`) and run `waitPermissionResponse` with a 60 000 ms timeout. -/
def canUseTool (userMode : PermissionMode) (turnId : String)
    (sessionId : Option String) (projectId cwd : Option String)
    (toolName toolInput : String) (reqId : String) (now : Nat)
    (pending : AList PermissionRequest) (env : ResponsesEnv) :
    CanUseToolOutcome :=
  if userMode ≠ PermissionMode.default then
    if userMode = PermissionMode.bypassPermissions ∨
        userMode = PermissionMode.acceptEdits then
      { decision := ToolDecision.allow toolInput
        events := []
        pendingAfter := pending }
    else
      { decision := ToolDecision.deny "Tool execution is disabled in plan mode"
        events := []
        pendingAfter := pending }
  else
    let permissionRequest : PermissionRequest :=
      { id := reqId, turnId := turnId, sessionId := sessionId
        toolName := toolName, toolInput := toolInput, timestamp := now }
    let w := waitPermissionResponse pending permissionRequest 60000 projectId cwd env
    match w.response with
    | none =>
      { decision := ToolDecision.deny "Permission request timed out"
        events := w.events
        pendingAfter := w.pendingAfter }
    | some response =>
      if response.decision = Decision.allow then
        { decision := ToolDecision.allow toolInput
          events := w.events
          pendingAfter := w.pendingAfter }
      else
        { decision := ToolDecision.deny "Permission denied by user"
          events := w.events
          pendingAfter := w.pendingAfter }

/-- Type `ClaudeCodeVersion` — the parsed `major.minor.patch` of the detected
Claude Code CLI. -/
structure ClaudeCodeVersion : Type where
  major : Nat
  minor : Nat
  patch : Nat
deriving DecidableEq, Repr

/-- Modelled from the spec: `ClaudeCodeVersion.greaterThanOrEqual` lives in
`ClaudeCodeVersion.ts`, which is not among the provided sources (only its
caller `ClaudeCode.ts` is).  The spec's feature gates speak of an engine
"version lower than" a threshold, so the comparison is embedded as the
standard lexicographic order on `(major, minor, patch)`. -/
def greaterThanOrEqual (v w : ClaudeCodeVersion) : Bool :=
  if v.major ≠ w.major then v.major > w.major
  else if v.minor ≠ w.minor then v.minor > w.minor
  else v.patch ≥ w.patch

/-- Record computed by `getAvailableFeatures(claudeCodeVersion)` of `ClaudeCode.ts`: each
feature flag is `version ≥ threshold`, and `false` when the version is
`null` (undetectable). -/
structure AvailableFeatures : Type where
  canUseTool : Bool
  uuidOnSDKMessage : Bool
  agentSdk : Bool
  sidechainSeparation : Bool
  runSkillsDirectly : Bool
deriving DecidableEq, Repr

/-- Feature gate: `version !== null && version ≥ threshold`. -/
def featureAtLeast (claudeCodeVersion : Option ClaudeCodeVersion)
    (threshold : ClaudeCodeVersion) : Bool :=
  match claudeCodeVersion with
  | none => false
  | some v => greaterThanOrEqual v threshold

def getAvailableFeatures (claudeCodeVersion : Option ClaudeCodeVersion) :
    AvailableFeatures :=
  { canUseTool := featureAtLeast claudeCodeVersion ⟨1, 0, 82⟩
    uuidOnSDKMessage := featureAtLeast claudeCodeVersion ⟨1, 0, 86⟩
    agentSdk := featureAtLeast claudeCodeVersion ⟨1, 0, 125⟩
    sidechainSeparation := featureAtLeast claudeCodeVersion ⟨2, 0, 28⟩
    runSkillsDirectly :=
      featureAtLeast claudeCodeVersion ⟨2, 1, 0⟩ ||
        featureAtLeast claudeCodeVersion ⟨2, 0, 77⟩ }

/-- Return shape of `createCanUseToolRelatedOptions`: either
`{ permissionMode: "bypassPermissions" }` with no `canUseTool` callback, or
`{ canUseTool, permissionMode: userConfig.permissionMode }`. -/
inductive CanUseToolRelatedOptions : Type
  | bypassOnly : CanUseToolRelatedOptions
  | withCallback (permissionMode : PermissionMode) : CanUseToolRelatedOptions
deriving DecidableEq, Repr

/-- Function `createCanUseToolRelatedOptions(options)` of
`ClaudeCodePermissionService`, after `ClaudeCode.Config` has resolved the
version: when the `canUseTool` feature is unavailable it returns only
`{ permissionMode: "bypassPermissions" }`; otherwise it returns the
`canUseTool` callback together with the user's configured mode. -/
def createCanUseToolRelatedOptions
    (claudeCodeVersion : Option ClaudeCodeVersion)
    (userMode : PermissionMode) : CanUseToolRelatedOptions :=
  if (getAvailableFeatures claudeCodeVersion).canUseTool then
    CanUseToolRelatedOptions.withCallback userMode
  else
    CanUseToolRelatedOptions.bypassOnly

/-- The caller-supplied slice of `AgentSdkQueryOptions` that `query`
inspects: `disallowedTools` may be absent (`undefined`), and the
destructured `canUseTool`/`permissionMode` pair. -/
structure QueryCallerOptions : Type where
  disallowedTools : Option (List String)
  hasCanUseTool : Bool
  permissionMode : PermissionMode
deriving DecidableEq, Repr

/-- The options object `query` assembles and hands to `agentSdk.query`. -/
structure BuiltQueryOptions : Type where
  pathToClaudeCodeExecutable : String
  disallowedTools : List String
  hasCanUseTool : Bool
  permissionMode : PermissionMode
deriving DecidableEq, Repr

/-- Outcome of `query(prompt, options)` in `ClaudeCode.ts` once `Config`
has resolved: either the typed `ClaudeCodeAgentSdkNotSupportedError`, or
the `agentSdk.query` invocation with the assembled options. -/
inductive QueryOutcome : Type
  | notSupportedError (message : String) : QueryOutcome
  | invoked (options : BuiltQueryOptions) : QueryOutcome
deriving DecidableEq, Repr

/-- Function `query(prompt, options)` of `ClaudeCode.ts`, given the resolved
executable path and detected version from `Config`.  It always prepends
`"AskUserQuestion"` to the caller's `disallowedTools ?? []`, keeps the
caller's `canUseTool`/`permissionMode` only when the `canUseTool` feature
is available (else forces `permissionMode: "bypassPermissions"` with no
callback), then fails with `ClaudeCodeAgentSdkNotSupportedError` when the
`agentSdk` feature is unavailable and otherwise calls `agentSdk.query`. -/
def query (claudeCodeExecutablePath : String)
    (claudeCodeVersion : Option ClaudeCodeVersion)
    (callerOptions : QueryCallerOptions) : QueryOutcome :=
  let availableFeatures := getAvailableFeatures claudeCodeVersion
  let options : BuiltQueryOptions :=
    { pathToClaudeCodeExecutable := claudeCodeExecutablePath
      disallowedTools :=
        "AskUserQuestion" :: callerOptions.disallowedTools.getD []
      hasCanUseTool :=
        if availableFeatures.canUseTool then callerOptions.hasCanUseTool
        else false
      permissionMode :=
        if availableFeatures.canUseTool then callerOptions.permissionMode
        else PermissionMode.bypassPermissions }
  if !availableFeatures.agentSdk then
    QueryOutcome.notSupportedError
      "Agent SDK is not supported in this version of Claude Code"
  else
    QueryOutcome.invoked options

/-- Outcome of the forked `abortTask` fiber.  The route discards it
(`void Effect.runFork(...)`), so the handler's response cannot depend on
it; parameterizing the handler over it makes that independence provable. -/
inductive AbortTaskOutcome : Type
  | succeeded : AbortTaskOutcome
  | failed (error : String) : AbortTaskOutcome
deriving DecidableEq, Repr

/-- JSON body returned by a route handler. -/
structure RouteResponse : Type where
  message : String
deriving DecidableEq, Repr

/-- The `POST /session-processes/:sessionProcessId/abort` handler
(`claudeCodeRoutes`): it forks `abortTask(sessionProcessId)` in the
background, discards the fiber, and unconditionally answers
`{ message: "Task aborted" }`. -/
def abortRoute (sessionProcessId : String)
    (abortTaskOutcome : AbortTaskOutcome) : RouteResponse :=
  { message := "Task aborted" }

/-- Outcome of the outbound `fetch` to the Telegram API as observed by
`sendTelegramMessage`: the promise resolved with a response (`ok` flag,
status, body text), or it (or `response.text()`) rejected/threw. -/
inductive FetchOutcome : Type
  | resolved (ok : Bool) (status : Nat) (bodyText : String) : FetchOutcome
  | rejected (error : String) : FetchOutcome
deriving DecidableEq, Repr

/-- The body of `sendTelegramMessage` inside the `try` block, with the
error channel (`Except.error`) standing for a thrown/rejected failure:
a non-`ok` HTTP status is logged (not thrown); a rejection propagates. -/
def sendTelegramMessageTryBlock (outcome : FetchOutcome) :
    Except String (List String) :=
  match outcome with
  | FetchOutcome.resolved ok status bodyText =>
    if ok then Except.ok []
    else
      Except.ok
        ["Telegram API error: " ++ toString status ++ " " ++ bodyText]
  | FetchOutcome.rejected error => Except.error error

/-- Function `sendTelegramMessage` of the Telegram notification service: the whole
body sits in `try { ... } catch (error) { console.error(...) }`, so every
failure of the outbound request is converted into a log line and the
function returns normally.  The result is the list of `console.error`
lines; `Except.error` would be a propagated failure and is never
produced. -/
def sendTelegramMessage (botToken chatId text : String)
    (outcome : FetchOutcome) : Except String (List String) :=
  match sendTelegramMessageTryBlock outcome with
  | Except.ok logs => Except.ok logs
  | Except.error error =>
    Except.ok ["Failed to send Telegram notification: " ++ error]

/-- The loop's result depends on the responses map only at instants up to
the moment it resolves: two environments that agree at every poll time up
to the first run's elapsed time produce identical results.  This is the
formal content of "a response recorded after the waiter resolved cannot
change what the waiter observed". -/
theorem waitLoop_stable (look look' : Nat → Option PermissionResponse)
    (timeoutMs : Nat) :
    ∀ fuel passedMs,
      (∀ t, t ≤ (waitLoop look timeoutMs passedMs fuel).2 → look' t = look t) →
      waitLoop look' timeoutMs passedMs fuel =
        waitLoop look timeoutMs passedMs fuel := by
  intro fuel
  induction fuel with
  | zero => intro passedMs _; rfl
  | succ fuel ih =>
    intro passedMs hagree
    by_cases hlt : passedMs < timeoutMs
    · have hread : look' passedMs = look passedMs :=
        hagree passedMs (waitLoop_elapsed_ge look timeoutMs (fuel + 1) passedMs)
      cases hr : look passedMs with
      | some r =>
        rw [waitLoop_found look timeoutMs passedMs fuel r hlt hr,
          waitLoop_found look' timeoutMs passedMs fuel r hlt (hread.trans hr)]
      | none =>
        rw [waitLoop_step look timeoutMs passedMs fuel hlt hr,
          waitLoop_step look' timeoutMs passedMs fuel hlt (hread.trans hr)]
        refine ih (passedMs + 1000) ?_
        intro t ht
        refine hagree t ?_
        rw [waitLoop_step look timeoutMs passedMs fuel hlt hr]
        exact ht
    · rw [waitLoop_exit look timeoutMs passedMs _ (Nat.not_lt.mp hlt),
        waitLoop_exit look' timeoutMs passedMs _ (Nat.not_lt.mp hlt)]

/-- C1 (claim as stated is refuted at a concrete input): with
`timeoutMs = 200` and a responses map that never contains an answer, the
wait returns the `none` sentinel only after 1000 ms of sleeping — more than
the claimed ~400 ms upper bound. -/
theorem waitPermissionResponse_200ms_counterexample :
    (waitPermissionResponse []
        { id := "req-1", turnId := "turn-1", sessionId := none,
          toolName := "Bash", toolInput := "ls", timestamp := 0 }
        200 none none (fun _ => [])).response = none ∧
      (waitPermissionResponse []
          { id := "req-1", turnId := "turn-1", sessionId := none,
            toolName := "Bash", toolInput := "ls", timestamp := 0 }
          200 none none (fun _ => [])).elapsedMs = 1000 ∧
      ¬ (waitPermissionResponse []
          { id := "req-1", turnId := "turn-1", sessionId := none,
            toolName := "Bash", toolInput := "ls", timestamp := 0 }
          200 none none (fun _ => [])).elapsedMs ≤ 400 := by
  decide

/-- C1 (amended): for `timeoutMs = 200` and no response ever recorded for
the request's id, `waitPermissionResponse` returns the timeout sentinel
(`none` decision) after a total waited time of exactly one full 1000 ms
poll interval — at least the requested 200 ms and never earlier, but
1000 ms rather than the ≤ ~400 ms the original claim states, because the
loop sleeps in fixed 1000 ms steps. -/
theorem waitPermissionResponse_200ms_timeout
    (pending : AList PermissionRequest) (request : PermissionRequest)
    (projectId cwd : Option String) (env : ResponsesEnv)
    (hnone : ∀ t, AList.get request.id (env t) = none) :
    (waitPermissionResponse pending request 200 projectId cwd env).response
        = none ∧
      (waitPermissionResponse pending request 200 projectId cwd env).elapsedMs
        = 1000 ∧
      200 ≤ (waitPermissionResponse pending request 200 projectId cwd
        env).elapsedMs := by
  have key : waitLoop (fun t => AList.get request.id (env t)) 200 0 200
      = (none, 1000) := by
    calc waitLoop (fun t => AList.get request.id (env t)) 200 0 200
        = waitLoop (fun t => AList.get request.id (env t)) 200 0 (199 + 1) := by
          norm_num
      _ = waitLoop (fun t => AList.get request.id (env t)) 200 1000 199 :=
          waitLoop_step _ 200 0 199 (by norm_num) (hnone 0)
      _ = (none, 1000) := waitLoop_exit _ 200 1000 199 (by norm_num)
  refine ⟨?_, ?_, ?_⟩ <;> simp [waitPermissionResponse, key]

/-- Witness for C1's amended theorem at a concrete input. -/
theorem waitPermissionResponse_200ms_timeout_witness :
    (waitPermissionResponse []
        { id := "req-1", turnId := "turn-1", sessionId := none,
          toolName := "Bash", toolInput := "ls", timestamp := 0 }
        200 none none (fun _ => [])).response = none ∧
      (waitPermissionResponse []
          { id := "req-1", turnId := "turn-1", sessionId := none,
            toolName := "Bash", toolInput := "ls", timestamp := 0 }
          200 none none (fun _ => [])).elapsedMs = 1000 ∧
      200 ≤ (waitPermissionResponse []
          { id := "req-1", turnId := "turn-1", sessionId := none,
            toolName := "Bash", toolInput := "ls", timestamp := 0 }
          200 none none (fun _ => [])).elapsedMs :=
  waitPermissionResponse_200ms_timeout []
    { id := "req-1", turnId := "turn-1", sessionId := none,
      toolName := "Bash", toolInput := "ls", timestamp := 0 }
    none none (fun _ => []) (fun _ => rfl)

/-- C2 (claim as stated is refuted at a concrete input): a wait that
expires with no response recorded leaves its request in the pending map —
the timeout path of `waitPermissionResponse` deletes nothing. -/
theorem pending_not_removed_on_timeout_counterexample :
    (waitPermissionResponse []
        { id := "req-2", turnId := "turn-2", sessionId := none,
          toolName := "Edit", toolInput := "patch", timestamp := 5 }
        200 none none (fun _ => [])).response = none ∧
      AList.get "req-2"
          (waitPermissionResponse []
            { id := "req-2", turnId := "turn-2", sessionId := none,
              toolName := "Edit", toolInput := "patch", timestamp := 5 }
            200 none none (fun _ => [])).pendingAfter
        = some
          { id := "req-2", turnId := "turn-2", sessionId := none,
            toolName := "Edit", toolInput := "patch", timestamp := 5 } := by
  decide

/-- C2 (amended): the request stays in the pending map after the wait
returns — including when the bounded wait expires with no response — and
it is removed from the pending map only by `respondToPermissionRequest`,
which deletes the responded id. -/
theorem pending_removed_only_by_respond
    (pending : AList PermissionRequest) (request : PermissionRequest)
    (timeoutMs : Nat) (projectId cwd : Option String) (env : ResponsesEnv) :
    AList.get request.id
        (waitPermissionResponse pending request timeoutMs projectId cwd
          env).pendingAfter = some request ∧
      ∀ (response : PermissionResponse) (s : GatewayState),
        AList.get response.permissionRequestId
          (respondToPermissionRequest response s).pending = none := by
  constructor
  · simp [waitPermissionResponse, AList.get_set_self]
  · intro response s
    simp [respondToPermissionRequest, AList.get_del_self]

/-- C3: in `"default"` permission mode, when the permission wait returns
with no decision (no response for the request's id ever appears within the
60 000 ms window), the `canUseTool` callback returns a deny decision
carrying the timeout message — it neither raises an error nor blocks
beyond the bounded wait. -/
theorem canUseTool_timeout_denies (turnId : String)
    (sessionId projectId cwd : Option String) (toolName toolInput : String)
    (reqId : String) (now : Nat) (pending : AList PermissionRequest)
    (env : ResponsesEnv) (hnone : ∀ t, AList.get reqId (env t) = none) :
    (canUseTool PermissionMode.default turnId sessionId projectId cwd
        toolName toolInput reqId now pending env).decision
      = ToolDecision.deny "Permission request timed out" := by
  have hb := waitLoop_timeout_bounds (fun t => AList.get reqId (env t)) 60000
    hnone 60000 0 (by norm_num) (by norm_num)
  obtain ⟨hres, -, -⟩ := hb
  have hwait : (waitPermissionResponse pending
      { id := reqId, turnId := turnId, sessionId := sessionId,
        toolName := toolName, toolInput := toolInput, timestamp := now }
      60000 projectId cwd env).response = none := by
    simpa [waitPermissionResponse] using hres
  simp [canUseTool, hwait]

/-- Witness for C3 at a concrete input. -/
theorem canUseTool_timeout_denies_witness :
    (canUseTool PermissionMode.default "turn-3" none none none
        "Bash" "rm -rf build" "req-3" 42 [] (fun _ => [])).decision
      = ToolDecision.deny "Permission request timed out" :=
  canUseTool_timeout_denies "turn-3" none none none "Bash" "rm -rf build"
    "req-3" 42 [] (fun _ => []) (fun _ => rfl)

/-- C4: responding is harmless and at-most-once as observed by waiters.
First conjunct: `respondToPermissionRequest` is a total state update (its
source has no error channel) and a duplicate call with the same response —
including for an id that is unknown or already resolved — leaves the state
exactly as after the first call.  Second conjunct: the resolution a waiter
observes is fixed once the wait returns — any environment that differs
from the original only at instants after the wait's elapsed time (e.g. a
second `respond` arriving later) yields the identical wait result, so at
most one terminal resolution is ever observable on a given id. -/
theorem respond_idempotent_and_wait_stable :
    (∀ (response : PermissionResponse) (s : GatewayState),
        respondToPermissionRequest response
            (respondToPermissionRequest response s)
          = respondToPermissionRequest response s) ∧
      ∀ (pending : AList PermissionRequest) (request : PermissionRequest)
        (timeoutMs : Nat) (projectId cwd : Option String)
        (env env' : ResponsesEnv),
        (∀ t, t ≤ (waitPermissionResponse pending request timeoutMs projectId
              cwd env).elapsedMs →
            AList.get request.id (env' t) = AList.get request.id (env t)) →
        waitPermissionResponse pending request timeoutMs projectId cwd env'
          = waitPermissionResponse pending request timeoutMs projectId cwd
              env := by
  constructor
  · intro response s
    simp [respondToPermissionRequest, AList.set_set_self, AList.del_del_self]
  · intro pending request timeoutMs projectId cwd env env' hagree
    have hstable := waitLoop_stable (fun t => AList.get request.id (env t))
      (fun t => AList.get request.id (env' t)) timeoutMs timeoutMs 0
      (fun t ht => hagree t ht)
    simp [waitPermissionResponse, hstable]

/-- Witness for C4 at a concrete input: a duplicate allow for id `"req-4"`
is a state no-op, and a response recorded after the wait already timed out
(after its 1000 ms of sleeping) leaves the wait's outcome unchanged. -/
theorem respond_idempotent_and_wait_stable_witness :
    (respondToPermissionRequest ⟨"req-4", Decision.allow⟩
        (respondToPermissionRequest ⟨"req-4", Decision.allow⟩ ⟨[], []⟩)
      = respondToPermissionRequest ⟨"req-4", Decision.allow⟩ ⟨[], []⟩) ∧
      waitPermissionResponse [] ⟨"req-4", "turn-4", none, "Bash", "ls", 0⟩
          200 none none
          (fun t => if t ≤ 1000 then []
            else [("req-4", ⟨"req-4", Decision.allow⟩)])
        = waitPermissionResponse []
            ⟨"req-4", "turn-4", none, "Bash", "ls", 0⟩ 200 none none
            (fun _ => []) := by
  refine ⟨respond_idempotent_and_wait_stable.1 _ _,
    respond_idempotent_and_wait_stable.2 [] _ 200 none none _ _ ?_⟩
  intro t ht
  have helapsed : (waitPermissionResponse []
      ⟨"req-4", "turn-4", none, "Bash", "ls", 0⟩ 200 none none
      (fun _ => [])).elapsedMs = 1000 := by decide
  rw [helapsed] at ht
  simp [ht]

/-- C5: when the user's permission mode is not `"default"`, the
`canUseTool` callback short-circuits: `"bypassPermissions"` and
`"acceptEdits"` yield allow with the unchanged tool input, `"plan"` yields
deny with the plan-mode message; in every such case no event is emitted
and the pending map is untouched (no `PermissionRequest` is created). -/
theorem canUseTool_short_circuit (userMode : PermissionMode)
    (turnId : String) (sessionId projectId cwd : Option String)
    (toolName toolInput reqId : String) (now : Nat)
    (pending : AList PermissionRequest) (env : ResponsesEnv)
    (hmode : userMode ≠ PermissionMode.default) :
    (canUseTool userMode turnId sessionId projectId cwd toolName toolInput
        reqId now pending env).events = [] ∧
      (canUseTool userMode turnId sessionId projectId cwd toolName toolInput
          reqId now pending env).pendingAfter = pending ∧
      ((userMode = PermissionMode.bypassPermissions ∨
          userMode = PermissionMode.acceptEdits) →
        (canUseTool userMode turnId sessionId projectId cwd toolName
            toolInput reqId now pending env).decision
          = ToolDecision.allow toolInput) ∧
      (userMode = PermissionMode.plan →
        (canUseTool userMode turnId sessionId projectId cwd toolName
            toolInput reqId now pending env).decision
          = ToolDecision.deny "Tool execution is disabled in plan mode") := by
  cases userMode <;> simp_all [canUseTool]

/-- Witness for C5 at a concrete input (mode `"bypassPermissions"`). -/
theorem canUseTool_short_circuit_witness :
    (canUseTool PermissionMode.bypassPermissions "turn-5" none none none
        "Bash" "ls" "req-5" 7 [] (fun _ => [])).events = [] ∧
      (canUseTool PermissionMode.bypassPermissions "turn-5" none none none
          "Bash" "ls" "req-5" 7 [] (fun _ => [])).pendingAfter = [] ∧
      ((PermissionMode.bypassPermissions = PermissionMode.bypassPermissions ∨
          PermissionMode.bypassPermissions = PermissionMode.acceptEdits) →
        (canUseTool PermissionMode.bypassPermissions "turn-5" none none none
            "Bash" "ls" "req-5" 7 [] (fun _ => [])).decision
          = ToolDecision.allow "ls") ∧
      (PermissionMode.bypassPermissions = PermissionMode.plan →
        (canUseTool PermissionMode.bypassPermissions "turn-5" none none none
            "Bash" "ls" "req-5" 7 [] (fun _ => [])).decision
          = ToolDecision.deny "Tool execution is disabled in plan mode") :=
  canUseTool_short_circuit PermissionMode.bypassPermissions "turn-5" none
    none none "Bash" "ls" "req-5" 7 [] (fun _ => []) (by decide)

/-- C6: when the detected Claude Code version is `null` or lower than
1.0.82 (the `canUseTool` feature unavailable),
`createCanUseToolRelatedOptions` returns only
`{ permissionMode: "bypassPermissions" }` with no `canUseTool` callback,
whatever the user's configured permission mode — so no permission request,
pending entry, or `permissionRequested` event can arise in that turn. -/
theorem createCanUseToolRelatedOptions_bypass_when_unavailable
    (claudeCodeVersion : Option ClaudeCodeVersion)
    (userMode : PermissionMode)
    (hunavailable : claudeCodeVersion = none ∨
      ∃ v, claudeCodeVersion = some v ∧
        greaterThanOrEqual v ⟨1, 0, 82⟩ = false) :
    createCanUseToolRelatedOptions claudeCodeVersion userMode
      = CanUseToolRelatedOptions.bypassOnly := by
  rcases hunavailable with h | ⟨v, hv, hlt⟩
  · subst h
    simp [createCanUseToolRelatedOptions, getAvailableFeatures,
      featureAtLeast]
  · subst hv
    simp [createCanUseToolRelatedOptions, getAvailableFeatures,
      featureAtLeast, hlt]

/-- Witness for C6 at version 1.0.81 (one patch below the gate). -/
theorem createCanUseToolRelatedOptions_bypass_when_unavailable_witness :
    createCanUseToolRelatedOptions (some ⟨1, 0, 81⟩) PermissionMode.default
      = CanUseToolRelatedOptions.bypassOnly :=
  createCanUseToolRelatedOptions_bypass_when_unavailable (some ⟨1, 0, 81⟩)
    PermissionMode.default (Or.inr ⟨⟨1, 0, 81⟩, rfl, by decide⟩)

/-- C7: given the executable resolved, `query` fails with the distinct
`ClaudeCodeAgentSdkNotSupportedError` (and its fixed message) exactly when
the detected version is `null` or lower than 1.0.125, and otherwise
proceeds to invoke the agent SDK. -/
theorem query_agentSdk_gate (claudeCodeExecutablePath : String)
    (claudeCodeVersion : Option ClaudeCodeVersion)
    (callerOptions : QueryCallerOptions) :
    ((∃ message, query claudeCodeExecutablePath claudeCodeVersion
          callerOptions = QueryOutcome.notSupportedError message) ↔
        (claudeCodeVersion = none ∨ ∃ v, claudeCodeVersion = some v ∧
          greaterThanOrEqual v ⟨1, 0, 125⟩ = false)) ∧
      (∀ message, query claudeCodeExecutablePath claudeCodeVersion
          callerOptions = QueryOutcome.notSupportedError message →
        message
          = "Agent SDK is not supported in this version of Claude Code") ∧
      ((∃ builtOptions, query claudeCodeExecutablePath claudeCodeVersion
            callerOptions = QueryOutcome.invoked builtOptions) ↔
        ¬(claudeCodeVersion = none ∨ ∃ v, claudeCodeVersion = some v ∧
          greaterThanOrEqual v ⟨1, 0, 125⟩ = false)) := by
  have hchar : (getAvailableFeatures claudeCodeVersion).agentSdk = false ↔
      (claudeCodeVersion = none ∨ ∃ v, claudeCodeVersion = some v ∧
        greaterThanOrEqual v ⟨1, 0, 125⟩ = false) := by
    cases claudeCodeVersion with
    | none => simp [getAvailableFeatures, featureAtLeast]
    | some v =>
      cases hb : greaterThanOrEqual v ⟨1, 0, 125⟩ <;>
        simp [getAvailableFeatures, featureAtLeast, hb]
  cases hA : (getAvailableFeatures claudeCodeVersion).agentSdk with
  | false =>
    have hq : query claudeCodeExecutablePath claudeCodeVersion callerOptions
        = QueryOutcome.notSupportedError
            "Agent SDK is not supported in this version of Claude Code" := by
      simp [query, hA]
    refine ⟨⟨fun _ => hchar.mp hA, fun _ => ⟨_, hq⟩⟩, ?_, ?_⟩
    · intro message hmsg
      rw [hq] at hmsg
      injection hmsg with h
      exact h.symm
    · constructor
      · rintro ⟨b, hb⟩
        rw [hq] at hb
        cases hb
      · intro hnot
        exact absurd (hchar.mp hA) hnot
  | true =>
    have hq : ∃ builtOptions, query claudeCodeExecutablePath
        claudeCodeVersion callerOptions
          = QueryOutcome.invoked builtOptions := by
      simp only [query, hA, Bool.not_true, Bool.false_eq_true, if_false]
      exact ⟨_, rfl⟩
    obtain ⟨b, hb⟩ := hq
    refine ⟨⟨?_, ?_⟩, ?_, ⟨fun _ => ?_, fun _ => ⟨b, hb⟩⟩⟩
    · rintro ⟨message, hmsg⟩
      rw [hb] at hmsg
      cases hmsg
    · intro hcond
      rw [hchar.mpr hcond] at hA
      cases hA
    · intro message hmsg
      rw [hb] at hmsg
      cases hmsg
    · intro hcond
      rw [hchar.mpr hcond] at hA
      cases hA

/-- Witness for C7 at version 1.0.124 (one patch below the agent-SDK
gate): the query fails with the distinct not-supported error. -/
theorem query_agentSdk_gate_witness :
    ∃ message, query "/usr/bin/claude" (some ⟨1, 0, 124⟩)
        (QueryCallerOptions.mk none false PermissionMode.default)
      = QueryOutcome.notSupportedError message :=
  (query_agentSdk_gate "/usr/bin/claude" (some ⟨1, 0, 124⟩)
    (QueryCallerOptions.mk none false PermissionMode.default)).1.mpr
    (Or.inr ⟨⟨1, 0, 124⟩, rfl, by decide⟩)

/-- C8: the abort endpoint answers `{ message: "Task aborted" }` for every
`sessionProcessId` and whatever the forked `abortTask` fiber does — its
outcome is discarded, so no error (and no not-found/already-terminal
condition) can ever surface to the HTTP caller. -/
theorem abortRoute_always_succeeds (sessionProcessId : String)
    (abortTaskOutcome : AbortTaskOutcome) :
    abortRoute sessionProcessId abortTaskOutcome
      = { message := "Task aborted" } :=
  rfl

/-- C9: `sendTelegramMessage` never propagates a delivery failure — for
every outcome of the outbound request it returns normally (`Except.ok`,
never `Except.error`), with a non-`ok` HTTP status or a thrown/rejected
fetch reduced to a `console.error` log line. -/
theorem sendTelegramMessage_never_propagates (botToken chatId text : String)
    (outcome : FetchOutcome) :
    sendTelegramMessage botToken chatId text outcome =
      Except.ok (match outcome with
        | FetchOutcome.resolved true _ _ => []
        | FetchOutcome.resolved false status bodyText =>
          ["Telegram API error: " ++ toString status ++ " " ++ bodyText]
        | FetchOutcome.rejected error =>
          ["Failed to send Telegram notification: " ++ error]) := by
  cases outcome with
  | resolved ok status bodyText =>
    cases ok <;> rfl
  | rejected error => rfl

/-- C10: whenever `query` reaches the agent SDK, the options it passes
contain `"AskUserQuestion"` in `disallowedTools` in addition to every
caller-supplied disallowed tool. -/
theorem query_disallows_AskUserQuestion (claudeCodeExecutablePath : String)
    (claudeCodeVersion : Option ClaudeCodeVersion)
    (callerOptions : QueryCallerOptions) (builtOptions : BuiltQueryOptions)
    (hinvoked : query claudeCodeExecutablePath claudeCodeVersion
      callerOptions = QueryOutcome.invoked builtOptions) :
    "AskUserQuestion" ∈ builtOptions.disallowedTools ∧
      ∀ tool ∈ callerOptions.disallowedTools.getD [],
        tool ∈ builtOptions.disallowedTools := by
  cases hA : (getAvailableFeatures claudeCodeVersion).agentSdk with
  | false => simp [query, hA] at hinvoked
  | true =>
    simp only [query, hA, Bool.not_true, Bool.false_eq_true, if_false,
      QueryOutcome.invoked.injEq] at hinvoked
    rw [← hinvoked]
    refine ⟨List.mem_cons_self _ _, ?_⟩
    intro tool htool
    exact List.mem_cons_of_mem _ htool

/-- Witness for C10 at a concrete input (version 1.0.125, caller
disallowing `"WebSearch"`). -/
theorem query_disallows_AskUserQuestion_witness :
    "AskUserQuestion" ∈
      (BuiltQueryOptions.mk "/usr/bin/claude"
        ["AskUserQuestion", "WebSearch"] true
        PermissionMode.default).disallowedTools ∧
      ∀ tool ∈ (QueryCallerOptions.mk (some ["WebSearch"]) true
          PermissionMode.default).disallowedTools.getD [],
        tool ∈ (BuiltQueryOptions.mk "/usr/bin/claude"
          ["AskUserQuestion", "WebSearch"] true
          PermissionMode.default).disallowedTools :=
  query_disallows_AskUserQuestion "/usr/bin/claude" (some ⟨1, 0, 125⟩)
    (QueryCallerOptions.mk (some ["WebSearch"]) true PermissionMode.default)
    (BuiltQueryOptions.mk "/usr/bin/claude" ["AskUserQuestion", "WebSearch"]
      true PermissionMode.default)
    (by decide)

end ClaudeCodeViewer
